import Mathlib

/-!
Verification of the OSM-import pipeline in
`scripts/import_osm_and_census_data.py`.

The Python source is shallowly embedded here:

* Python `float` values are idealised as real numbers (`ℝ`) in the
  geometry / segment-synthesis part, and as rationals (`ℚ`) in the
  SQL aggregation part (where every statement we prove is either
  exact field algebra or a concrete decidable computation).
* Python `int` is `ℤ`, node identifiers are `ℕ`.
* Python dictionaries keyed by node id are association lists
  (`List (ℕ × _)`) read through `List.lookup`; an assignment conses the
  new binding in front, so `lookup` sees the latest binding, exactly as
  a `dict` does.
* Python sets of node ids are `Finset ℕ`.
* Code that can raise an exception which escapes the function is
  embedded in `Except PyErr`; exceptions that the source catches
  (`ValueError`, `IndexError` in the speed parser) are folded into the
  non-raising result.
-/

attribute [local semireducible] Rat.mul Rat.add Rat.inv Rat.sub Rat.ofScientific

/-- Exceptions that can escape the embedded code.  `overflowError` is
raised by Python's `int()` on an infinite float and is *not* in the
`except (ValueError, IndexError)` clause of `create_road_segments`;
`zeroDivisionError` is raised by `length_miles / speed` when the
resolved speed is `0`. -/
inductive PyErr where
  | overflowError
  | zeroDivisionError
deriving DecidableEq

/-! ## `escape_tsv` (source lines 61-66)

`escape_tsv` maps `None` to the sentinel `\N` and otherwise applies
`str(v).replace('\\','\\\\').replace('\t',' ').replace('\n',' ')`.
We model the argument as `Option String` (a `str` argument satisfies
`str(v) == v`); the three single-character-pattern `replace` calls are
modelled on `List Char`. -/

/-- Replace each backslash by two backslashes, exactly like
`s.replace('\\', '\\\\')` (single-character pattern, so the
left-to-right non-overlapping scan is a pointwise expansion). -/
def escape_bs : List Char → List Char
  | [] => []
  | c :: cs => if c = '\\' then '\\' :: '\\' :: escape_bs cs else c :: escape_bs cs

/-- Model of `.replace('\t', ' ')` applied pointwise. -/
def tab_to_space (c : Char) : Char := if c = '\t' then ' ' else c

/-- Model of `.replace('\n', ' ')` applied pointwise. -/
def nl_to_space (c : Char) : Char := if c = '\n' then ' ' else c

/-- Character-level body of `escape_tsv` for a non-`None` value, in the
source's order: backslashes first, then tabs, then newlines. -/
def escapeChars (l : List Char) : List Char :=
  ((escape_bs l).map tab_to_space).map nl_to_space

/-- Model of `escape_tsv` (source lines 61-66). -/
def escape_tsv : Option String → String
  | none => "\\N"
  | some s => String.mk (escapeChars s.data)

/-! ## Highway configuration (source lines 20-37) -/

/-- Model of the frozenset `HIGHWAY_TYPES` (source lines 20-25). -/
def HIGHWAY_TYPES : List String :=
  ["motorway", "motorway_link", "trunk", "trunk_link",
   "primary", "primary_link", "secondary", "secondary_link"]

/-- Model of the dict `DEFAULT_SPEEDS` (source lines 28-37) as a finite
lookup function. -/
def DEFAULT_SPEEDS (highway : String) : Option Int :=
  if highway = "motorway" then some 70
  else if highway = "motorway_link" then some 50
  else if highway = "trunk" then some 65
  else if highway = "trunk_link" then some 45
  else if highway = "primary" then some 55
  else if highway = "primary_link" then some 35
  else if highway = "secondary" then some 45
  else if highway = "secondary_link" then some 30
  else none

/-- Model of `DEFAULT_SPEEDS.get(highway, 45)` (source line 189). -/
def default_speed (highway : String) : Int := (DEFAULT_SPEEDS highway).getD 45

/-- Model of the frozenset `TOURISM_TYPES` (source lines 40-46). -/
def TOURISM_TYPES : List String :=
  ["museum", "attraction", "viewpoint", "artwork",
   "gallery", "theme_park", "zoo", "aquarium",
   "hotel", "motel", "hostel", "guest_house",
   "camp_site", "caravan_site", "picnic_site",
   "information", "yes"]

/-! ## The maxspeed parser (source lines 190-195)

`speed = int(float(maxspeed_str.replace('mph', '').strip().split()[0]))`
guarded by `except (ValueError, IndexError): pass`.

Modelling notes, checked against CPython semantics:
* `.replace('mph','')` removes every occurrence of `mph`, scanning left
  to right without rescanning the replacement;
* `.strip()` drops leading/trailing whitespace, `.split()[0]` is the
  first maximal run of non-whitespace characters (raising `IndexError`
  when there is none);
* `float(tok)` accepts an optional sign followed by either a decimal
  literal (digits, optional single `.`, optional `e`/`E` exponent) or
  the case-insensitive words `inf`, `infinity`, `nan`.  We represent
  the value exactly as a rational (no binary rounding, no overflow of
  large finite literals to infinity, no digit-group underscores);
* `int(x)` truncates a finite float toward zero, raises `ValueError`
  (caught) on `nan`, and raises `OverflowError` (NOT caught by the
  source's except clause) on an infinite float. -/

/-- Result of a Python float conversion. -/
inductive PyFloat where
  | finite (q : Rat)
  | inf
  | ninf
  | nan
deriving DecidableEq

/-- Remove every occurrence of the substring `mph`, left to right:
model of `.replace('mph', '')`. -/
def stripMph : List Char → List Char
  | 'm' :: 'p' :: 'h' :: rest => stripMph rest
  | c :: rest => c :: stripMph rest
  | [] => []

/-- Model of Python `str.strip()` on the character list. -/
def pyStrip (l : List Char) : List Char :=
  ((l.dropWhile Char.isWhitespace).reverse.dropWhile Char.isWhitespace).reverse

/-- Numeric value of a digit string. -/
def digitsToNat (l : List Char) : Nat :=
  l.foldl (fun a c => 10 * a + (c.toNat - 48)) 0

/-- Exponent suffix of a float literal (the part after `e`/`E`):
an optional sign followed by at least one digit, nothing else. -/
def expPart : List Char → Option Int
  | [] => none
  | '+' :: ds => if !ds.isEmpty && ds.all Char.isDigit then some (digitsToNat ds : Int) else none
  | '-' :: ds => if !ds.isEmpty && ds.all Char.isDigit then some (-(digitsToNat ds : Int)) else none
  | ds => if !ds.isEmpty && ds.all Char.isDigit then some (digitsToNat ds : Int) else none

/-- Exact value of the decimal literal `ip . fp e ex`. -/
def decimalValue (ip fp : List Char) (ex : Int) : Rat :=
  ((digitsToNat ip : Rat) + (digitsToNat fp : Rat) / (10 : Rat) ^ fp.length) * (10 : Rat) ^ ex

/-- Model of Python `float(tok)` on a whitespace-free token. -/
def pyFloatChars (cs0 : List Char) : Option PyFloat :=
  let signed : Bool × List Char :=
    match cs0 with
    | '+' :: rest => (false, rest)
    | '-' :: rest => (true, rest)
    | rest => (false, rest)
  let neg := signed.1
  let cs := signed.2
  let lower := cs.map Char.toLower
  if lower = ['i', 'n', 'f'] ∨ lower = ['i', 'n', 'f', 'i', 'n', 'i', 't', 'y'] then
    some (if neg then PyFloat.ninf else PyFloat.inf)
  else if lower = ['n', 'a', 'n'] then
    some PyFloat.nan
  else
    let ipr := cs.span Char.isDigit
    let fpr := match ipr.2 with
      | '.' :: r => r.span Char.isDigit
      | _ => ([], ipr.2)
    if ipr.1.isEmpty && fpr.1.isEmpty then none
    else
      let finish : Int → Option PyFloat := fun ex =>
        let q := decimalValue ipr.1 fpr.1 ex
        some (PyFloat.finite (if neg then -q else q))
      match fpr.2 with
      | [] => finish 0
      | 'e' :: r => (expPart r).bind finish
      | 'E' :: r => (expPart r).bind finish
      | _ => none

/-- Python `int()` applied to a finite float: truncation toward zero
(Lean's `Int` division also truncates toward zero). -/
def pyTruncate (q : Rat) : Int := q.num / (q.den : Int)

/-- Outcome of the guarded parse
`int(float(maxspeed_str.replace('mph','').strip().split()[0]))`:
either a value, an exception caught by `except (ValueError, IndexError)`
(empty token list, unparseable token, or `nan`), or the uncaught
`OverflowError` from `int()` on an infinite float. -/
inductive ParseOutcome where
  | val (n : Int)
  | caught
  | uncaught
deriving DecidableEq

/-- Model of the parse expression inside the `try` block
(source line 193). -/
def parse_maxspeed (s : String) : ParseOutcome :=
  match pyStrip (stripMph s.data) with
  | [] => ParseOutcome.caught
  | c :: cs =>
    match pyFloatChars ((c :: cs).takeWhile fun ch => !ch.isWhitespace) with
    | none => ParseOutcome.caught
    | some (PyFloat.finite q) => ParseOutcome.val (pyTruncate q)
    | some PyFloat.nan => ParseOutcome.caught
    | some PyFloat.inf => ParseOutcome.uncaught
    | some PyFloat.ninf => ParseOutcome.uncaught

/-- Speed resolution of `create_road_segments` (source lines 187-195):
the category default, overridden by a parsed `maxspeed` when the string
is non-empty and the parse succeeds; a caught parse failure keeps the
default; an infinite float propagates `OverflowError`. -/
def resolve_speed (highway maxspeed : String) : Except PyErr Int :=
  let dflt := default_speed highway
  if maxspeed = "" then Except.ok dflt
  else
    match parse_maxspeed maxspeed with
    | ParseOutcome.val n => Except.ok n
    | ParseOutcome.caught => Except.ok dflt
    | ParseOutcome.uncaught => Except.error PyErr.overflowError

example : parse_maxspeed "50 mph" = ParseOutcome.val 50 := by decide
example : parse_maxspeed "65.5" = ParseOutcome.val 65 := by decide
example : parse_maxspeed "" = ParseOutcome.caught := by decide
example : parse_maxspeed "fast" = ParseOutcome.caught := by decide
example : parse_maxspeed "inf" = ParseOutcome.uncaught := by decide
example : parse_maxspeed "0" = ParseOutcome.val 0 := by decide
example : resolve_speed "motorway" "" = Except.ok 70 := rfl
example : resolve_speed "footpath" "" = Except.ok 45 := rfl

/-! ## Geometry (source lines 49-58)

Python floats are idealised as real numbers; `math.atan2 y x` is
`Complex.arg ⟨x, y⟩`, which agrees with `atan2` on all of ℝ² (range
`(-π, π]`, `atan2 0 0 = 0`). -/

/-- Model of `math.atan2`. -/
noncomputable def atan2 (y x : ℝ) : ℝ := Complex.arg ⟨x, y⟩

/-- Model of `haversine_distance` (source lines 49-58). -/
noncomputable def haversine_distance (lat1 lon1 lat2 lon2 : ℝ) : ℝ :=
  let earth_radius_miles : ℝ := 3958.8
  let dlat := (lat2 - lat1) * Real.pi / 180
  let dlon := (lon2 - lon1) * Real.pi / 180
  let a := Real.sin (dlat / 2) ^ 2 +
    Real.cos (lat1 * Real.pi / 180) * Real.cos (lat2 * Real.pi / 180) * Real.sin (dlon / 2) ^ 2
  let c := 2 * atan2 (Real.sqrt a) (Real.sqrt (1 - a))
  earth_radius_miles * c

/-! ## Extracted entities (source lines 69-107) -/

/-- One retained way, as appended to `handler.ways` (source line 107):
`(osm_id, [node_ids], highway, name, oneway, maxspeed)`. -/
structure Way where
  osm_id : Nat
  nodeIds : List Nat
  highway : String
  name : String
  oneway : Bool
  maxspeed : String
deriving DecidableEq

/-- One row written to the `road_segments` COPY buffer
(source lines 211-212); the `name` column carries the escaped form. -/
structure RoadSegment where
  way_id : Nat
  start_node : Nat
  end_node : Nat
  name : String
  highway_type : String
  length_miles : ℝ
  speed_mph : Int
  travel_time_s : ℝ
  oneway : Bool

/-- State of the single-pass `OSMHandler` (source lines 69-107). -/
structure OSMHandler where
  node_coords : List (Nat × ℝ × ℝ)
  ways : List Way
  tourist_attractions : List (Nat × String × String × ℝ × ℝ)
  road_node_ids : Finset Nat

/-- Fresh handler state (source lines 72-79). -/
def initHandler : OSMHandler := ⟨[], [], [], ∅⟩

/-- Model of `OSMHandler.node` (source lines 81-93): record the point as
a tourist attraction when its `tourism` tag is recognised (name
defaulting to `Unnamed <tourism>`), and always record its coordinates. -/
def OSMHandler.node (h : OSMHandler) (osm_id : Nat) (lat lon : ℝ)
    (tags : List (String × String)) : OSMHandler :=
  let h1 :=
    match tags.lookup "tourism" with
    | some t =>
      if t ∈ TOURISM_TYPES then
        { h with tourist_attractions :=
            h.tourist_attractions ++
              [(osm_id, (tags.lookup "name").getD ("Unnamed " ++ t), t, lat, lon)] }
      else h
    | none => h
  { h1 with node_coords := (osm_id, lat, lon) :: h1.node_coords }

/-- Model of `OSMHandler.way` (source lines 95-107): keep the way when
its `highway` tag is recognised, union its node references into
`road_node_ids`, and append the extracted record. -/
def OSMHandler.way (h : OSMHandler) (osm_id : Nat) (nodeRefs : List Nat)
    (tags : List (String × String)) : OSMHandler :=
  match tags.lookup "highway" with
  | some hw =>
    if hw ∈ HIGHWAY_TYPES then
      { h with
        road_node_ids := h.road_node_ids ∪ nodeRefs.toFinset,
        ways := h.ways ++
          [{ osm_id := osm_id, nodeIds := nodeRefs, highway := hw,
             name := (tags.lookup "name").getD "",
             oneway := ((tags.lookup "oneway").getD "no") == "yes",
             maxspeed := (tags.lookup "maxspeed").getD "" }] }
    else h
  | none => h

/-- An entity of the OSM stream, as osmium hands it to the handler. -/
inductive OSMEntity where
  | node (osm_id : Nat) (lat lon : ℝ) (tags : List (String × String))
  | way (osm_id : Nat) (nodeRefs : List Nat) (tags : List (String × String))

/-- Dispatch one entity to the handler callback. -/
def applyEntity (h : OSMHandler) : OSMEntity → OSMHandler
  | OSMEntity.node i la lo tags => h.node i la lo tags
  | OSMEntity.way i refs tags => h.way i refs tags

/-- Model of `handler.apply_file(...)`: one sequential pass. -/
def processEvents (evts : List OSMEntity) : OSMHandler :=
  evts.foldl applyEntity initHandler

/-- Memory reclamation in `main` (source lines 294-301):
`handler.node_coords = {k: v for k, v in handler.node_coords.items()
if k in needed_nodes}` with `needed_nodes = handler.road_node_ids`. -/
def reclaim (h : OSMHandler) : OSMHandler :=
  { h with node_coords := h.node_coords.filter fun p => decide (p.1 ∈ h.road_node_ids) }

/-! ## Segment synthesis (source lines 182-220)

The loop `for i in range(len(node_ids) - 1)` visits exactly the
consecutive pairs `node_ids.zip node_ids.tail`, in order.  A pair with
an endpoint missing from `node_coords` is skipped; a present pair with
resolved speed `0` raises `ZeroDivisionError` (uncaught); otherwise one
buffer row is emitted with `travel_time_s = length_miles / speed * 3600`. -/

/-- Row built for one consecutive node pair (source lines 202-213). -/
noncomputable def mkSegment (w : Way) (v : Int) (se : Nat × Nat) (p1 p2 : ℝ × ℝ) : RoadSegment :=
  { way_id := w.osm_id, start_node := se.1, end_node := se.2,
    name := escape_tsv (some w.name), highway_type := w.highway,
    length_miles := haversine_distance p1.1 p1.2 p2.1 p2.2,
    speed_mph := v,
    travel_time_s := haversine_distance p1.1 p1.2 p2.1 p2.2 / (v : ℝ) * 3600,
    oneway := w.oneway }

/-- Inner loop of `create_road_segments` over the consecutive pairs of
one way. -/
noncomputable def waySegmentsGo (coords : List (Nat × ℝ × ℝ)) (w : Way) (v : Int) :
    List (Nat × Nat) → Except PyErr (List RoadSegment)
  | [] => Except.ok []
  | se :: rest =>
    match List.lookup se.1 coords, List.lookup se.2 coords with
    | some p1, some p2 =>
      if v = 0 then Except.error PyErr.zeroDivisionError
      else (waySegmentsGo coords w v rest).map fun segs => mkSegment w v se p1 p2 :: segs
    | _, _ => waySegmentsGo coords w v rest

/-- Segments of one way at resolved speed `v` (source lines 198-213). -/
noncomputable def waySegments (coords : List (Nat × ℝ × ℝ)) (w : Way) (v : Int) :
    Except PyErr (List RoadSegment) :=
  waySegmentsGo coords w v (w.nodeIds.zip w.nodeIds.tail)

/-- Model of `create_road_segments` (source lines 182-220): resolve the
speed of each way in turn and emit its segment rows; an uncaught
exception aborts the whole call (the buffer is never copied). -/
noncomputable def create_road_segments (coords : List (Nat × ℝ × ℝ)) :
    List Way → Except PyErr (List RoadSegment)
  | [] => Except.ok []
  | w :: ws =>
    match resolve_speed w.highway w.maxspeed with
    | Except.error e => Except.error e
    | Except.ok v =>
      match waySegments coords w v with
      | Except.error e => Except.error e
      | Except.ok segs =>
        match create_road_segments coords ws with
        | Except.error e => Except.error e
        | Except.ok rest => Except.ok (segs ++ rest)

/-! ## Properties of `escape_tsv` (claim C6) -/

theorem escapeChars_nil : escapeChars [] = [] := rfl

theorem escapeChars_cons (c : Char) (l : List Char) :
    escapeChars (c :: l) =
      (if c = '\\' then ['\\', '\\'] else [nl_to_space (tab_to_space c)]) ++ escapeChars l := by
  by_cases h : c = '\\' <;>
    simp [escapeChars, escape_bs, h, tab_to_space, nl_to_space]

theorem eq_backslash_of_subst (c : Char) (h : nl_to_space (tab_to_space c) = '\\') :
    c = '\\' := by
  unfold tab_to_space nl_to_space at h
  split_ifs at h <;> first | exact h | exact absurd h (by decide)

theorem escapeChars_ne_sentinel : ∀ l : List Char, escapeChars l ≠ ['\\', 'N'] := by
  intro l h
  cases l with
  | nil => simp [escapeChars_nil] at h
  | cons c t =>
    rw [escapeChars_cons] at h
    by_cases hc : c = '\\'
    · rw [if_pos hc] at h
      simp at h
    · rw [if_neg hc] at h
      simp at h
      exact hc (eq_backslash_of_subst c h.1)

theorem subst_ne_tab_nl (c : Char) :
    nl_to_space (tab_to_space c) ≠ '\t' ∧ nl_to_space (tab_to_space c) ≠ '\n' := by
  unfold tab_to_space nl_to_space
  split_ifs with h1 h2 h3 <;> refine ⟨?_, ?_⟩ <;> first | decide | simp_all

theorem mem_escapeChars_ne (l : List Char) :
    ∀ c ∈ escapeChars l, c ≠ '\t' ∧ c ≠ '\n' := by
  induction l with
  | nil => simp [escapeChars_nil]
  | cons a t ih =>
    intro c hc
    rw [escapeChars_cons] at hc
    rcases List.mem_append.mp hc with hl | hr
    · by_cases ha : a = '\\'
      · rw [if_pos ha] at hl
        simp at hl
        subst hl
        exact ⟨by decide, by decide⟩
      · rw [if_neg ha] at hl
        simp at hl
        subst hl
        exact subst_ne_tab_nl a
    · exact ih c hr

theorem escapeChars_id (l : List Char) (h1 : '\\' ∉ l) (h2 : '\t' ∉ l) (h3 : '\n' ∉ l) :
    escapeChars l = l := by
  induction l with
  | nil => rfl
  | cons a t ih =>
    simp only [List.mem_cons, not_or] at h1 h2 h3
    rw [escapeChars_cons, if_neg (fun hh => h1.1 hh.symm)]
    have ht : tab_to_space a = a := by
      unfold tab_to_space; exact if_neg (fun hh => h2.1 hh.symm)
    have hn : nl_to_space a = a := by
      unfold nl_to_space; exact if_neg (fun hh => h3.1 hh.symm)
    rw [ht, hn, ih h1.2 h2.2 h3.2]
    rfl

/-- The string `Tom's Diner` (apostrophe written as character 39). -/
def tomsDiner : String :=
  String.mk ['T', 'o', 'm', Char.ofNat 39, 's', ' ', 'D', 'i', 'n', 'e', 'r']

/-- Claim C6: `escape_tsv` maps `None` to the sentinel `\N`; for a
non-`None` value it doubles backslashes and then turns each tab and
newline into a space, so the escaped form never equals the sentinel,
contains no field or record separator, and any string free of
backslash, tab and newline — such as `Tom's Diner` — is returned
unchanged. -/
theorem escape_tsv_spec :
    escape_tsv none = "\\N"
    ∧ (∀ s : String, escape_tsv (some s) ≠ "\\N")
    ∧ (∀ s : String, ∀ c ∈ (escape_tsv (some s)).data, c ≠ '\t' ∧ c ≠ '\n')
    ∧ (∀ s : String, '\\' ∉ s.data → '\t' ∉ s.data → '\n' ∉ s.data →
        escape_tsv (some s) = s)
    ∧ escape_tsv (some tomsDiner) = tomsDiner := by
  refine ⟨rfl, ?_, ?_, ?_, by decide⟩
  · intro s h
    have hd : escapeChars s.data = ['\\', 'N'] := by
      have h2 := congrArg String.data h
      simpa [escape_tsv] using h2
    exact escapeChars_ne_sentinel s.data hd
  · intro s c hc
    have hm : c ∈ escapeChars s.data := by simpa [escape_tsv] using hc
    exact mem_escapeChars_ne s.data c hm
  · intro s h1 h2 h3
    show String.mk (escapeChars s.data) = s
    rw [escapeChars_id s.data h1 h2 h3]

/-- Witness for C6 at concrete inputs. -/
theorem escape_tsv_spec_witness :
    escape_tsv (some (String.mk ['T', 'o', 'm'])) = String.mk ['T', 'o', 'm']
    ∧ ('T' ≠ '\t' ∧ 'T' ≠ '\n') :=
  ⟨escape_tsv_spec.2.2.2.1 (String.mk ['T', 'o', 'm']) (by decide) (by decide) (by decide),
   escape_tsv_spec.2.2.1 (String.mk ['T', 'o', 'm']) 'T' (by decide)⟩

/-! ## Speed resolution: claims C2 and C7 -/

/-- Counterexample to claim C2 as stated: `maxspeed = "0"` on a
recognised category parses successfully, so the resolved speed is `0`,
which is not strictly positive. -/
theorem speed_zero_counterexample :
    ¬ ∀ v : Int, "motorway" ∈ HIGHWAY_TYPES →
        resolve_speed "motorway" "0" = Except.ok v → 0 < v := by
  intro h
  exact absurd (h 0 (by decide) rfl) (by decide)

/-- Claim C2 (amended): whenever the maxspeed string is absent or its
parse fails with a caught error, the resolved speed is the per-category
default, and every default (including the fallback `45`) is strictly
positive; a maxspeed that parses is used as parsed and may be zero or
negative. -/
theorem default_speed_positive (highway maxspeed : String)
    (h : maxspeed = "" ∨ parse_maxspeed maxspeed = ParseOutcome.caught) :
    resolve_speed highway maxspeed = Except.ok (default_speed highway)
    ∧ 0 < default_speed highway := by
  constructor
  · rcases h with h | h
    · simp [resolve_speed, h]
    · by_cases he : maxspeed = ""
      · simp [resolve_speed, he]
      · simp [resolve_speed, he, h]
  · unfold default_speed DEFAULT_SPEEDS
    split_ifs <;> decide

/-- Witness for C2 (amended) at a concrete input. -/
theorem default_speed_positive_witness :
    resolve_speed "motorway" "" = Except.ok (default_speed "motorway")
    ∧ 0 < default_speed "motorway" :=
  default_speed_positive "motorway" "" (Or.inl rfl)

/-- Claim C7: a maxspeed string whose float conversion is infinite
(such as `"inf"`) makes `int()` raise `OverflowError`, which the
source's `except (ValueError, IndexError)` clause does not catch, so
the exception escapes and aborts `create_road_segments` instead of
falling back to the category default. -/
theorem maxspeed_inf_uncaught :
    resolve_speed "motorway" "inf" = Except.error PyErr.overflowError
    ∧ create_road_segments []
        [{ osm_id := 1, nodeIds := [1, 2], highway := "motorway",
           name := "", oneway := false, maxspeed := "inf" }]
      = Except.error PyErr.overflowError :=
  ⟨rfl, rfl⟩

/-! ## Segment synthesis: claims C1 and C5 -/

theorem waySegmentsGo_mem (coords : List (Nat × ℝ × ℝ)) (w : Way) (v : Int) :
    ∀ (pairs : List (Nat × Nat)) (segs : List RoadSegment),
      waySegmentsGo coords w v pairs = Except.ok segs →
      ∀ s ∈ segs, ∃ se ∈ pairs, ∃ p1 p2 : ℝ × ℝ,
        List.lookup se.1 coords = some p1 ∧ List.lookup se.2 coords = some p2 ∧
        s = mkSegment w v se p1 p2 := by
  intro pairs
  induction pairs with
  | nil =>
    intro segs h s hs
    simp only [waySegmentsGo, Except.ok.injEq] at h
    subst h
    simp at hs
  | cons se rest ih =>
    intro segs h s hs
    rw [waySegmentsGo] at h
    split at h
    case _ p1 p2 hl1 hl2 =>
      split at h
      · cases h
      · rcases hr : waySegmentsGo coords w v rest with e | rsegs <;>
          rw [hr] at h <;> simp only [Except.map] at h
        · cases h
        · injection h with h
          subst h
          rcases List.mem_cons.mp hs with rfl | hs'
          · exact ⟨se, List.mem_cons_self se rest, p1, p2, hl1, hl2, rfl⟩
          · rcases ih rsegs hr s hs' with ⟨se', hmem, q1, q2, e1, e2, hse⟩
            exact ⟨se', List.mem_cons_of_mem se hmem, q1, q2, e1, e2, hse⟩
    case _ =>
      rcases ih segs h s hs with ⟨se', hmem, q1, q2, e1, e2, hse⟩
      exact ⟨se', List.mem_cons_of_mem se hmem, q1, q2, e1, e2, hse⟩

/-- Claim C1: every segment emitted by `create_road_segments` has
`travel_time_s = length_miles / speed_mph * 3600`, its `length_miles`
is the haversine distance between the coordinates of its two endpoint
nodes, and its `speed_mph` is the resolved speed of a way of the input. -/
theorem travel_time_invariant (coords : List (Nat × ℝ × ℝ)) (ways : List Way)
    (segs : List RoadSegment) (h : create_road_segments coords ways = Except.ok segs) :
    ∀ s ∈ segs,
      s.travel_time_s = s.length_miles / (s.speed_mph : ℝ) * 3600
      ∧ (∃ w ∈ ways, resolve_speed w.highway w.maxspeed = Except.ok s.speed_mph)
      ∧ ∃ p1 p2 : ℝ × ℝ,
          List.lookup s.start_node coords = some p1
          ∧ List.lookup s.end_node coords = some p2
          ∧ s.length_miles = haversine_distance p1.1 p1.2 p2.1 p2.2 := by
  induction ways generalizing segs with
  | nil =>
    simp only [create_road_segments, Except.ok.injEq] at h
    subst h
    intro s hs
    simp at hs
  | cons w ws ih =>
    intro s hs
    rw [create_road_segments] at h
    split at h
    · cases h
    next v hr =>
      split at h
      · cases h
      next wsegs hws =>
        split at h
        · cases h
        next rest hrest =>
          injection h with h
          subst h
          rcases List.mem_append.mp hs with hsw | hsr
          · rcases waySegmentsGo_mem coords w v _ wsegs hws s hsw with
              ⟨se, _, p1, p2, e1, e2, rfl⟩
            refine ⟨rfl, ⟨w, List.mem_cons_self w ws, ?_⟩, p1, p2, ?_, ?_, rfl⟩
            · simpa [mkSegment] using hr
            · simpa [mkSegment] using e1
            · simpa [mkSegment] using e2
          · rcases ih rest hrest s hsr with ⟨ht, ⟨w', hw', hr'⟩, hp⟩
            exact ⟨ht, ⟨w', List.mem_cons_of_mem w hw', hr'⟩, hp⟩

/-- Concrete two-node coordinate map for witnesses. -/
noncomputable def coords0 : List (Nat × ℝ × ℝ) := [(1, 0, 0), (2, 1, 1)]

/-- Concrete recognised way for witnesses: two known nodes, no
explicit maxspeed. -/
def way0 : Way :=
  { osm_id := 7, nodeIds := [1, 2], highway := "motorway",
    name := "", oneway := false, maxspeed := "" }

/-- The single segment `create_road_segments coords0 [way0]` emits. -/
noncomputable def seg0 : RoadSegment := mkSegment way0 70 (1, 2) (0, 0) (1, 1)

/-- Witness for C1: the invariant instantiated on the segment emitted
from `way0` over `coords0`. -/
theorem travel_time_invariant_witness :
    seg0.travel_time_s = seg0.length_miles / (seg0.speed_mph : ℝ) * 3600
    ∧ (∃ w ∈ [way0], resolve_speed w.highway w.maxspeed = Except.ok seg0.speed_mph)
    ∧ ∃ p1 p2 : ℝ × ℝ,
        List.lookup seg0.start_node coords0 = some p1
        ∧ List.lookup seg0.end_node coords0 = some p2
        ∧ seg0.length_miles = haversine_distance p1.1 p1.2 p2.1 p2.2 :=
  travel_time_invariant coords0 [way0] [seg0] rfl seg0 (List.mem_singleton_self seg0)

/-- Number of consecutive node pairs of a way whose two endpoints are
both present in the coordinate map. -/
def presentPairCount (coords : List (Nat × ℝ × ℝ)) (w : Way) : Nat :=
  ((w.nodeIds.zip w.nodeIds.tail).filter fun se =>
    (List.lookup se.1 coords).isSome && (List.lookup se.2 coords).isSome).length

theorem waySegmentsGo_length (coords : List (Nat × ℝ × ℝ)) (w : Way) (v : Int) :
    ∀ (pairs : List (Nat × Nat)) (segs : List RoadSegment),
      waySegmentsGo coords w v pairs = Except.ok segs →
      segs.length = (pairs.filter fun se =>
        (List.lookup se.1 coords).isSome && (List.lookup se.2 coords).isSome).length := by
  intro pairs
  induction pairs with
  | nil =>
    intro segs h
    simp only [waySegmentsGo, Except.ok.injEq] at h
    subst h
    rfl
  | cons se rest ih =>
    intro segs h
    rw [waySegmentsGo] at h
    split at h
    case _ p1 p2 hl1 hl2 =>
      split at h
      · cases h
      · rcases hr : waySegmentsGo coords w v rest with e | rsegs <;>
          rw [hr] at h <;> simp only [Except.map] at h
        · cases h
        · injection h with h
          subst h
          have hcond : ((List.lookup se.1 coords).isSome &&
              (List.lookup se.2 coords).isSome) = true := by
            rw [hl1, hl2]; rfl
          simp [List.filter_cons, hcond, ih rsegs hr]
    case _ hne =>
      have hcond : ((List.lookup se.1 coords).isSome &&
          (List.lookup se.2 coords).isSome) = false := by
        rcases hl1 : List.lookup se.1 coords with _ | p1
        · rfl
        · rcases hl2 : List.lookup se.2 coords with _ | p2
          · rfl
          · exact (hne p1 p2 hl1 hl2).elim
      simp only [List.filter_cons, hcond, if_neg Bool.false_ne_true]
      exact ih segs h

theorem presentPairCount_all_present (coords : List (Nat × ℝ × ℝ)) (w : Way)
    (hall : ∀ n ∈ w.nodeIds, (List.lookup n coords).isSome = true) :
    presentPairCount coords w = w.nodeIds.length - 1 := by
  unfold presentPairCount
  rw [List.filter_eq_self.mpr]
  · simp
  · intro se hse
    obtain ⟨a, b⟩ := se
    obtain ⟨ha, hb⟩ := List.of_mem_zip hse
    rw [hall a ha, hall b (List.tail_subset _ hb)]
    rfl

theorem create_road_segments_length (coords : List (Nat × ℝ × ℝ)) :
    ∀ (ways : List Way) (segs : List RoadSegment),
      create_road_segments coords ways = Except.ok segs →
      segs.length = (ways.map (presentPairCount coords)).sum := by
  intro ways
  induction ways with
  | nil =>
    intro segs h
    simp only [create_road_segments, Except.ok.injEq] at h
    subst h
    rfl
  | cons w ws ih =>
    intro segs h
    rw [create_road_segments] at h
    split at h
    · cases h
    next v hr =>
      split at h
      · cases h
      next wsegs hws =>
        split at h
        · cases h
        next rest hrest =>
          injection h with h
          subst h
          rw [List.length_append, waySegmentsGo_length coords w v _ wsegs hws,
            ih rest hrest]
          simp [presentPairCount]

/-- Claim C5: a topology with fewer than two nodes yields no segments
and no error; and when `create_road_segments` succeeds it emits exactly
one segment per consecutive node pair whose two endpoints are present
in the coordinate map — hence `length - 1` segments per way when every
referenced node is present. -/
theorem segment_count_characterization :
    (∀ (coords : List (Nat × ℝ × ℝ)) (w : Way) (v : Int),
        w.nodeIds.length < 2 → waySegments coords w v = Except.ok [])
    ∧ ∀ (coords : List (Nat × ℝ × ℝ)) (ways : List Way) (segs : List RoadSegment),
        create_road_segments coords ways = Except.ok segs →
        segs.length = (ways.map (presentPairCount coords)).sum
        ∧ ((∀ w ∈ ways, ∀ n ∈ w.nodeIds, (List.lookup n coords).isSome = true) →
            segs.length = (ways.map fun w => w.nodeIds.length - 1).sum) := by
  constructor
  · intro coords w v hlen
    rw [waySegments]
    rcases hn : w.nodeIds with _ | ⟨a, _ | ⟨b, t⟩⟩
    · rfl
    · rfl
    · rw [hn] at hlen
      simp only [List.length_cons] at hlen
      omega
  · intro coords ways segs h
    refine ⟨create_road_segments_length coords ways segs h, fun hall => ?_⟩
    rw [create_road_segments_length coords ways segs h]
    congr 1
    exact List.map_congr_left fun w hw => presentPairCount_all_present coords w (hall w hw)

/-- Witness for C5 at concrete inputs: a one-node way gives no
segments without error, and the way `way0` with both endpoints present
gives exactly `2 - 1 = 1` segment. -/
theorem segment_count_characterization_witness :
    waySegments coords0
      { osm_id := 9, nodeIds := [5], highway := "motorway",
        name := "", oneway := false, maxspeed := "" } 70 = Except.ok []
    ∧ [seg0].length = ([way0].map (presentPairCount coords0)).sum
    ∧ [seg0].length = ([way0].map fun w => w.nodeIds.length - 1).sum :=
  ⟨segment_count_characterization.1 coords0 _ 70 (by decide),
   (segment_count_characterization.2 coords0 [way0] [seg0] rfl).1,
   (segment_count_characterization.2 coords0 [way0] [seg0] rfl).2 (by decide)⟩

/-! ## Reclamation: claims C3 and C4 -/

theorem lookup_filter_mem (s : Finset Nat) (l : List (Nat × ℝ × ℝ)) (k : Nat) :
    List.lookup k (l.filter fun p => decide (p.1 ∈ s)) =
      if k ∈ s then List.lookup k l else none := by
  induction l with
  | nil => simp
  | cons a l ih =>
    obtain ⟨a1, av⟩ := a
    simp only [List.filter_cons]
    by_cases ha : a1 ∈ s
    · rw [if_pos (by simpa using ha)]
      by_cases hk : k = a1
      · subst hk
        simp [List.lookup_cons, if_pos ha]
      · have hbeq : (k == a1) = false := by simpa using hk
        simp only [List.lookup_cons, hbeq, Bool.false_eq_true, if_false, ih]
    · rw [if_neg (by simpa using ha)]
      rw [ih]
      by_cases hk : k ∈ s
      · rw [if_pos hk, if_pos hk]
        have hbeq : (k == a1) = false := by
          simp only [beq_eq_false_iff_ne]
          rintro rfl
          exact ha hk
        simp [List.lookup_cons, hbeq]
      · rw [if_neg hk, if_neg hk]

theorem node_fields (h : OSMHandler) (i : Nat) (la lo : ℝ) (tags : List (String × String)) :
    (h.node i la lo tags).node_coords = (i, la, lo) :: h.node_coords
    ∧ (h.node i la lo tags).ways = h.ways
    ∧ (h.node i la lo tags).road_node_ids = h.road_node_ids := by
  unfold OSMHandler.node
  split
  · split <;> exact ⟨rfl, rfl, rfl⟩
  · exact ⟨rfl, rfl, rfl⟩

theorem way_fields (h : OSMHandler) (i : Nat) (refs : List Nat)
    (tags : List (String × String)) :
    (h.way i refs tags).node_coords = h.node_coords
    ∧ (((h.way i refs tags).ways = h.ways
          ∧ (h.way i refs tags).road_node_ids = h.road_node_ids)
        ∨ ∃ hw : String,
            (h.way i refs tags).ways = h.ways ++
              [{ osm_id := i, nodeIds := refs, highway := hw,
                 name := (tags.lookup "name").getD "",
                 oneway := ((tags.lookup "oneway").getD "no") == "yes",
                 maxspeed := (tags.lookup "maxspeed").getD "" }]
            ∧ (h.way i refs tags).road_node_ids = h.road_node_ids ∪ refs.toFinset) := by
  unfold OSMHandler.way
  split
  next hw' heq =>
    split
    · exact ⟨rfl, Or.inr ⟨hw', rfl, rfl⟩⟩
    · exact ⟨rfl, Or.inl ⟨rfl, rfl⟩⟩
  next => exact ⟨rfl, Or.inl ⟨rfl, rfl⟩⟩

theorem foldl_needed_iff :
    ∀ (evts : List OSMEntity) (h : OSMHandler),
      (∀ k, k ∈ h.road_node_ids ↔ ∃ w ∈ h.ways, k ∈ w.nodeIds) →
      ∀ k, k ∈ (evts.foldl applyEntity h).road_node_ids ↔
        ∃ w ∈ (evts.foldl applyEntity h).ways, k ∈ w.nodeIds := by
  intro evts
  induction evts with
  | nil => intro h hinv; exact hinv
  | cons e rest ih =>
    intro h hinv
    simp only [List.foldl_cons]
    apply ih
    intro k
    cases e with
    | node i la lo tags =>
      obtain ⟨_, hw, hr⟩ := node_fields h i la lo tags
      simp only [applyEntity]
      rw [hw, hr]
      exact hinv k
    | way i refs tags =>
      simp only [applyEntity]
      rcases (way_fields h i refs tags).2 with ⟨hw, hr⟩ | ⟨hwname, hw, hr⟩
      · rw [hw, hr]
        exact hinv k
      · rw [hw, hr]
        simp only [Finset.mem_union, List.mem_toFinset, List.mem_append,
          List.mem_singleton]
        constructor
        · rintro (hk | hk)
          · rcases (hinv k).mp hk with ⟨w, hmem, hkw⟩
            exact ⟨w, Or.inl hmem, hkw⟩
          · exact ⟨_, Or.inr rfl, hk⟩
        · rintro ⟨w, hmem | rfl, hkw⟩
          · exact Or.inl ((hinv k).mpr ⟨w, hmem, hkw⟩)
          · exact Or.inr hkw

theorem processEvents_needed_iff (evts : List OSMEntity) (k : Nat) :
    k ∈ (processEvents evts).road_node_ids ↔
      ∃ w ∈ (processEvents evts).ways, k ∈ w.nodeIds := by
  refine foldl_needed_iff evts initHandler (fun k => ?_) k
  simp [initHandler]

/-- Claim C4: reclamation replaces the coordinate map by exactly its
restriction to the needed set, and the needed set is exactly the set
of identifiers referenced by some retained way. -/
theorem reclaim_restriction_and_needed_set (evts : List OSMEntity) (k : Nat) :
    (List.lookup k (reclaim (processEvents evts)).node_coords
      = if k ∈ (processEvents evts).road_node_ids
        then List.lookup k (processEvents evts).node_coords else none)
    ∧ (k ∈ (processEvents evts).road_node_ids ↔
        ∃ w ∈ (processEvents evts).ways, k ∈ w.nodeIds) :=
  ⟨lookup_filter_mem (processEvents evts).road_node_ids
      (processEvents evts).node_coords k,
   processEvents_needed_iff evts k⟩

/-- Identifier of a node entity (a way entity has none). -/
def nodeIdOf : OSMEntity → Option Nat
  | OSMEntity.node i _ _ _ => some i
  | OSMEntity.way _ _ _ => none

theorem applyEntity_coords_mono (h : OSMHandler) (e : OSMEntity) (k : Nat)
    (hk : (List.lookup k h.node_coords).isSome = true) :
    (List.lookup k (applyEntity h e).node_coords).isSome = true := by
  cases e with
  | node i la lo tags =>
    have hc := (node_fields h i la lo tags).1
    simp only [applyEntity]
    rw [hc]
    by_cases hki : (k == i) = true
    · simp [List.lookup_cons, hki]
    · simp only [List.lookup_cons, hki, Bool.false_eq_true, if_false]
      exact hk
  | way i refs tags =>
    have hc := (way_fields h i refs tags).1
    simp only [applyEntity]
    rw [hc]
    exact hk

theorem foldl_coords_some :
    ∀ (evts : List OSMEntity) (h : OSMHandler) (k : Nat),
      ((∃ e ∈ evts, nodeIdOf e = some k) ∨ (List.lookup k h.node_coords).isSome = true) →
      (List.lookup k (evts.foldl applyEntity h).node_coords).isSome = true := by
  intro evts
  induction evts with
  | nil =>
    intro h k hk
    rcases hk with ⟨e, he, _⟩ | hk
    · simp at he
    · exact hk
  | cons e rest ih =>
    intro h k hk
    simp only [List.foldl_cons]
    apply ih
    rcases hk with ⟨e', he', hival⟩ | hk
    · rcases List.mem_cons.mp he' with rfl | he2
      · right
        cases e' with
        | node i la lo tags =>
          simp only [nodeIdOf, Option.some.injEq] at hival
          have hc := (node_fields h i la lo tags).1
          simp only [applyEntity]
          rw [hc, ← hival]
          simp [List.lookup_cons]
        | way i refs tags => simp [nodeIdOf] at hival
      · left
        exact ⟨e', he2, hival⟩
    · right
      exact applyEntity_coords_mono h e k hk

/-- Counterexample to claim C3 as stated: a stream containing only a
recognised way that references node `5`, with no node entity for `5`,
retains a topology referencing `5` whose identifier has no entry in
the reclaimed coordinate map. -/
theorem reclaim_missing_node_counterexample :
    (∃ w ∈ (reclaim (processEvents
        [OSMEntity.way 1 [5] [("highway", "motorway")]])).ways, 5 ∈ w.nodeIds)
    ∧ List.lookup 5 (reclaim (processEvents
        [OSMEntity.way 1 [5] [("highway", "motorway")]])).node_coords = none := by
  constructor
  · exact ⟨{ osm_id := 1, nodeIds := [5], highway := "motorway",
             name := "", oneway := false, maxspeed := "" }, by decide, by decide⟩
  · rfl

/-- Claim C3 (amended): after reclamation, every identifier referenced
by a retained topology that also occurred as a node entity in the
input stream has an entry in the coordinate map; an identifier
referenced only by ways (never seen as a node) has none, and
unreferenced identifiers carry no guarantee. -/
theorem reclaim_keeps_referenced_nodes (evts : List OSMEntity) (k : Nat)
    (href : ∃ w ∈ (processEvents evts).ways, k ∈ w.nodeIds)
    (hnode : ∃ e ∈ evts, nodeIdOf e = some k) :
    (List.lookup k (reclaim (processEvents evts)).node_coords).isSome = true := by
  have hneed : k ∈ (processEvents evts).road_node_ids :=
    (processEvents_needed_iff evts k).mpr href
  have hsome := foldl_coords_some evts initHandler k (Or.inl hnode)
  show (List.lookup k ((processEvents evts).node_coords.filter fun p =>
      decide (p.1 ∈ (processEvents evts).road_node_ids))).isSome = true
  rw [lookup_filter_mem, if_pos hneed]
  exact hsome

/-- Witness for C3 (amended): node `5` appears in the stream and is
referenced by a retained way, so its entry survives reclamation. -/
theorem reclaim_keeps_referenced_nodes_witness :
    (List.lookup 5 (reclaim (processEvents
      [OSMEntity.node 5 0 0 [], OSMEntity.way 1 [5] [("highway", "motorway")]]
      )).node_coords).isSome = true :=
  reclaim_keeps_referenced_nodes
    [OSMEntity.node 5 0 0 [], OSMEntity.way 1 [5] [("highway", "motorway")]] 5
    ⟨{ osm_id := 1, nodeIds := [5], highway := "motorway",
       name := "", oneway := false, maxspeed := "" }, by decide, by decide⟩
    ⟨OSMEntity.node 5 0 0 [], List.mem_cons_self _ _, rfl⟩

/-! ## Nearest-assignment aggregator (source lines 223-261)

The aggregator runs over persisted rows; we embed the two SQL
statements over exact rationals (SQL numeric values idealised as `ℚ`).
`ORDER BY expr LIMIT 1` returns a row minimising `expr`; on ties the
row order is unspecified in SQL, and the model picks the earliest
minimising row. -/

/-- A row of `cities`. -/
structure City where
  id : Nat
  lat : Rat
  lon : Rat
  population : Rat
deriving DecidableEq

/-- A row of `tourist_attractions` (fields the aggregator touches). -/
structure TouristAttraction where
  id : Nat
  name : String
  lat : Rat
  lon : Rat
  nearest_city_id : Option Nat
deriving DecidableEq

/-- The proximity proxy `(ta.lat - c.lat)^2 + (ta.lon - c.lon)^2`
(source line 234). -/
def sqDelta (t : TouristAttraction) (c : City) : Rat :=
  (t.lat - c.lat) ^ 2 + (t.lon - c.lon) ^ 2

/-- The correlated subquery `SELECT c.id FROM cities c ORDER BY
(ta.lat - c.lat)^2 + (ta.lon - c.lon)^2 LIMIT 1` (source lines
231-236), as the row itself. -/
def nearestCity (t : TouristAttraction) (cities : List City) : Option City :=
  cities.argmin (sqDelta t)

/-- Phase 1, the UPDATE (source lines 229-237). -/
def assignStep (cities : List City) (ts : List TouristAttraction) :
    List TouristAttraction :=
  ts.map fun t => { t with nearest_city_id := (nearestCity t cities).map City.id }

/-- `COUNT(t.id)` of the LEFT JOIN row group of one city
(source lines 245-249). -/
def cityCount (ts : List TouristAttraction) (c : City) : Nat :=
  (ts.filter fun t => t.nearest_city_id == some c.id).length

/-- `COUNT(t.id)::float / c.population * 10000` (source line 246). -/
def per_capita (ts : List TouristAttraction) (c : City) : Rat :=
  (cityCount ts c : Rat) / c.population * 10000

/-- Phase 2, the `INSERT ... ON CONFLICT (city_id) DO UPDATE` upsert
(source lines 241-253): the summary table is a map keyed by `city_id`,
and each city's row is overwritten with the recomputed pair. -/
def upsertCounts (ts : List TouristAttraction) (cities : List City)
    (m : Nat → Option (Nat × Rat)) : Nat → Option (Nat × Rat) :=
  cities.foldl
    (fun m c => Function.update m c.id (some (cityCount ts c, per_capita ts c))) m

/-- The persistent state the aggregator reads and writes. -/
structure AggState where
  attractions : List TouristAttraction
  counts : Nat → Option (Nat × Rat)

/-- Model of `assign_tourist_attractions_to_cities` (source lines
223-261): assign every attraction its nearest city, then recompute and
upsert every city's summary row. -/
def assign_tourist_attractions_to_cities (cities : List City) (s : AggState) :
    AggState :=
  let ts := assignStep cities s.attractions
  { attractions := ts, counts := upsertCounts ts cities s.counts }

/-- Example data of the spec: a point of interest at `(34.0, -86.9)`
and two named locations. -/
def poiX : TouristAttraction :=
  { id := 100, name := "X", lat := 34.0, lon := -86.9, nearest_city_id := none }

/-- First named location of the example, population 215000. -/
def cityA : City := { id := 1, lat := 34.73, lon := -86.586, population := 215000 }

/-- Second named location of the example, population 210000. -/
def cityB : City := { id := 2, lat := 33.52, lon := -86.802, population := 210000 }

/-- Claim C8: the aggregator assigns every point of interest a named
location minimising the squared coordinate difference over all named
locations; in particular the example POI at `(34.0, -86.9)` is
assigned the second location. -/
theorem nearest_city_minimizes :
    (∀ (t : TouristAttraction) (cities : List City) (m : City),
        nearestCity t cities = some m → ∀ c ∈ cities, sqDelta t m ≤ sqDelta t c)
    ∧ (assignStep [cityA, cityB] [poiX]).map (fun t => t.nearest_city_id)
        = [some 2] := by
  constructor
  · intro t cities m hm c hc
    exact List.le_of_mem_argmin hc hm
  · decide

/-- Witness for C8: the minimality statement instantiated on the
spec's example. -/
theorem nearest_city_minimizes_witness :
    sqDelta poiX cityB ≤ sqDelta poiX cityA :=
  nearest_city_minimizes.1 poiX [cityA, cityB] cityB (by decide) cityA (by decide)

theorem upsertCounts_apply (ts : List TouristAttraction) :
    ∀ (cities : List City) (m : Nat → Option (Nat × Rat)) (x : Nat),
      upsertCounts ts cities m x =
        match cities.reverse.find? (fun c => c.id == x) with
        | some c => some (cityCount ts c, per_capita ts c)
        | none => m x := by
  intro cities
  induction cities with
  | nil => intro m x; rfl
  | cons c cs ih =>
    intro m x
    show upsertCounts ts cs
        (Function.update m c.id (some (cityCount ts c, per_capita ts c))) x = _
    rw [ih]
    rw [List.reverse_cons, List.find?_append]
    cases hf : cs.reverse.find? (fun c' => c'.id == x) with
    | some c' => simp [Option.or]
    | none =>
      simp only [Option.or]
      by_cases hx : (c.id == x) = true
      · have hxe : x = c.id := by
          have := beq_iff_eq.mp hx
          omega
        simp [List.find?, hx, Function.update_apply, hxe]
      · have hxe : ¬ x = c.id := fun hh => hx (by simp [hh])
        simp [List.find?, hx, Function.update_apply, hxe]

/-- Claim C9: running the aggregator twice in succession on unchanged
city data yields exactly the state of running it once — assignments
depend only on the immutable coordinates, and the summary upsert
overwrites rather than accumulates. -/
theorem aggregator_idempotent (cities : List City) (s : AggState) :
    assign_tourist_attractions_to_cities cities
      (assign_tourist_attractions_to_cities cities s)
    = assign_tourist_attractions_to_cities cities s := by
  have hassign : assignStep cities (assignStep cities s.attractions)
      = assignStep cities s.attractions := by
    unfold assignStep
    rw [List.map_map]
    rfl
  show AggState.mk
      (assignStep cities (assignStep cities s.attractions))
      (upsertCounts (assignStep cities (assignStep cities s.attractions)) cities
        (upsertCounts (assignStep cities s.attractions) cities s.counts))
    = AggState.mk (assignStep cities s.attractions)
        (upsertCounts (assignStep cities s.attractions) cities s.counts)
  rw [hassign]
  congr 1
  funext x
  rw [upsertCounts_apply (assignStep cities s.attractions) cities
      (upsertCounts (assignStep cities s.attractions) cities s.counts) x,
    upsertCounts_apply (assignStep cities s.attractions) cities s.counts x]
  cases hf : cities.reverse.find? (fun c => c.id == x) with
  | some c => rfl
  | none => rfl

/-! ## Bulk loader `copy_to_table` (source lines 110-122) -/

/-- One record serialized for the COPY buffer: tab-joined escaped
fields (source line 117). -/
def serializeRow (row : List (Option String)) : String :=
  String.intercalate "\t" (row.map escape_tsv)

/-- Model of `copy_to_table` (source lines 110-122): on an empty
record sequence return `0` immediately, performing no COPY; otherwise
stream the serialized rows into the table and return `len(data)`. -/
def copy_to_table (table : List String) (data : List (List (Option String))) :
    Nat × List String :=
  if data.isEmpty then (0, table)
  else (data.length, table ++ data.map serializeRow)

/-- Claim C10: `copy_to_table` returns the number of records of its
input; on an empty input it returns `0` and leaves the target table
unchanged, performing no COPY. -/
theorem copy_to_table_count (table : List String)
    (data : List (List (Option String))) :
    (copy_to_table table data).1 = data.length
    ∧ copy_to_table table [] = (0, table) := by
  constructor
  · cases data with
    | nil => rfl
    | cons r rs => rfl
  · rfl
